import Mathlib

/-!
Shallow embedding of the sync-reconciliation backend
(`src/services/syncService.ts`, `src/services/taskService.ts`,
`src/routes/tasks.ts`, `src/types.ts`).

Modelling conventions:
* SQLite tables become Lean lists of rows; `INSERT` appends, `UPDATE ... WHERE`
  maps over rows, `DELETE ... WHERE` filters rows.
* ISO-8601 timestamp strings are order-isomorphic to instants, so timestamps
  are modelled as `Nat` (only their order and equality matter to the code).
* `JSON.stringify`/`JSON.parse` of a task snapshot is modelled by the
  `Payload` type: a blob either deserializes back to the stored task
  (`Payload.ofTask`) or fails to parse (`Payload.malformed`).
* The axios remote boundary is a parameter `remote : Remote` returning
  `Except String Unit` (the thrown error's message on failure).
-/

namespace OutboxSpec

/-- `sync_status` of a task row: `'pending' | 'synced' | 'error'` (types.ts). -/
inductive SyncStatus
  | pending
  | synced
  | error
deriving DecidableEq, Repr

/-- A row of the `tasks` table (`Task` in types.ts). -/
structure Task where
  id : String
  title : String
  description : String
  completed : Bool
  created_at : Nat
  updated_at : Nat
  is_deleted : Bool
  sync_status : SyncStatus
  server_id : Option String
  last_synced_at : Option Nat
deriving DecidableEq, Repr

/-- A serialized payload blob: it either parses back to a task snapshot or is
malformed (`JSON.parse` throws on it). -/
inductive Payload
  | malformed
  | ofTask (t : Task)
deriving DecidableEq, Repr

/-- A row of the `sync_queue` table (`SyncQueueItem` in syncService.ts). -/
structure SyncItem where
  id : String
  task_id : String
  operation : String
  data : Payload
  created_at : Nat
  retry_count : Nat
  error_message : Option String
deriving DecidableEq, Repr

/-- The durable store: the `tasks` and `sync_queue` tables. -/
structure DB where
  tasks : List Task
  queue : List SyncItem
deriving DecidableEq, Repr

/-- `private maxRetries = 3` in `SyncService`. -/
def maxRetries : Nat := 3

/-- `String.prototype.includes`: does `pat` occur inside `s`?  Modelled over
the character lists. `matchesAt pat s` checks a match at the front. -/
def matchesAt : List Char → List Char → Bool
  | [], _ => true
  | _ :: _, [] => false
  | p :: ps, c :: cs => p == c && matchesAt ps cs

/-- Occurrence of `pat` anywhere in the character list. -/
def hasSubList (pat : List Char) : List Char → Bool
  | [] => pat.isEmpty
  | c :: cs => matchesAt pat (c :: cs) || hasSubList pat cs

/-- `s.includes pat` on strings. -/
def strIncludes (s pat : String) : Bool := hasSubList pat.data s.data

/-- The remote boundary: one network application of `(operation, data, taskId)`,
returning success or the thrown error's message. -/
def Remote := String → Task → String → Except String Unit

/-- `SyncService.addToSyncQueue`: inserts a fresh queue row with
`retry_count = 0` and `error_message = null`. -/
def addToSyncQueue (db : DB) (taskId : String) (operation : String)
    (data : Payload) (syncId : String) (now : Nat) : DB :=
  { db with
    queue := db.queue ++
      [{ id := syncId
         task_id := taskId
         operation := operation
         data := data
         created_at := now
         retry_count := 0
         error_message := none }] }

/-- `SyncService.makeApiCall`: dispatches on the operation; an unknown
operation throws without touching the network.  The boolean records whether
the network was actually invoked. -/
def makeApiCall (remote : Remote) (operation : String) (data : Task)
    (taskId : String) : Bool × Except String Unit :=
  if operation = "create" ∨ operation = "update" ∨ operation = "delete" then
    (true, remote operation data taskId)
  else
    (false, Except.error ("Unknown operation: " ++ operation))

/-- The success path of `processSyncItem`: `UPDATE tasks SET sync_status =
'synced', last_synced_at = now WHERE id = task_id` followed by
`DELETE FROM sync_queue WHERE id = item.id`. -/
def applySuccess (db : DB) (item : SyncItem) (now : Nat) : DB :=
  { tasks := db.tasks.map (fun t =>
      if t.id = item.task_id then
        { t with sync_status := SyncStatus.synced, last_synced_at := some now }
      else t)
    queue := db.queue.filter (fun q => ¬ q.id = item.id) }

/-- The simulated failure triggers of `processSyncItem` that fire after a
successful parse. -/
def failTrigger (item : SyncItem) (t : Task) : Bool :=
  strIncludes item.task_id "fail" || t.title == "TEST_FAILURE" ||
    t.description == "TEST_FAILURE"

/-- `SyncService.processSyncItem`: forced-failure check, payload parse,
test-failure triggers, then the remote call and the success-path store
updates.  Returns whether the network was invoked, and either the error
message thrown or the updated store. -/
def processSyncItem (remote : Remote) (db : DB) (item : SyncItem)
    (now : Nat) : Bool × Except String DB :=
  if item.operation = "fail" then
    (false, Except.error "Forced failure for testing")
  else
    match item.data with
    | Payload.malformed => (false, Except.error "Malformed data in sync queue")
    | Payload.ofTask taskData =>
      if failTrigger item taskData then
        (false, Except.error "Test sync failure")
      else
        match makeApiCall remote item.operation taskData item.task_id with
        | (called, Except.error e) => (called, Except.error e)
        | (called, Except.ok _) => (called, Except.ok (applySuccess db item now))

/-- `SyncService.handleSyncError`: bumps the queue row's retry count to
`item.retry_count + 1`, stores the error message, and if the new count
reaches `maxRetries` marks the owning task row `error`. -/
def handleSyncError (db : DB) (item : SyncItem) (e : String) : DB :=
  let newRetryCount := item.retry_count + 1
  let db1 : DB := { db with
    queue := db.queue.map (fun q =>
      if q.id = item.id then
        { q with retry_count := newRetryCount, error_message := some e }
      else q) }
  if maxRetries ≤ newRetryCount then
    { db1 with tasks := db1.tasks.map (fun t =>
        if t.id = item.task_id then { t with sync_status := SyncStatus.error }
        else t) }
  else db1

/-- The failure outcome of processing one item is independent of the store:
`none` means the item succeeds, `some e` that it throws `e`. -/
def processOutcome (remote : Remote) (item : SyncItem) : Option String :=
  if item.operation = "fail" then some "Forced failure for testing"
  else
    match item.data with
    | Payload.malformed => some "Malformed data in sync queue"
    | Payload.ofTask taskData =>
      if failTrigger item taskData then some "Test sync failure"
      else
        match makeApiCall remote item.operation taskData item.task_id with
        | (_, Except.error e) => some e
        | (_, Except.ok _) => none

/-- One entry of the `details` map built by `sync`. -/
inductive ItemDetail
  | success (taskId : String)
  | error (taskId : String) (message : String)
deriving DecidableEq, Repr

/-- The `details` field of a sync result: the per-item map, the empty-queue
message object, or the fatal-error object of the outer catch. -/
inductive Details
  | perItem (entries : List (String × ItemDetail))
  | noItems
  | fatal (message : String)
deriving DecidableEq, Repr

/-- The value returned by `SyncService.sync`. -/
structure SyncResult where
  success : Bool
  synced_items : Nat
  failed_items : Nat
  details : Details
deriving DecidableEq, Repr

/-- Accumulated outcome of the per-item loop in `sync`. -/
structure PassOut where
  synced : Nat
  failed : Nat
  entries : List (String × ItemDetail)
  db : DB
deriving DecidableEq, Repr

/-- The `for (const item of items)` loop of `sync`: processes the snapshot in
order, counting successes and failures, recording a detail entry per item,
and threading the store through success updates and `handleSyncError`. -/
def runItems (remote : Remote) (now : Nat) : DB → List SyncItem → PassOut
  | db, [] => { synced := 0, failed := 0, entries := [], db := db }
  | db, item :: rest =>
    match (processSyncItem remote db item now).2 with
    | Except.ok db1 =>
      let out := runItems remote now db1 rest
      { out with
        synced := out.synced + 1
        entries := (item.id, ItemDetail.success item.task_id) :: out.entries }
    | Except.error e =>
      let db1 := handleSyncError db item e
      let out := runItems remote now db1 rest
      { out with
        failed := out.failed + 1
        entries := (item.id, ItemDetail.error item.task_id e) :: out.entries }

/-- Predicate selecting queue rows with a given id. -/
def byId (i : String) (q : SyncItem) : Bool := q.id == i

/-- The detail entry `sync` records for one item, determined by the item's
outcome alone. -/
def detailOf (remote : Remote) (it : SyncItem) : ItemDetail :=
  match processOutcome remote it with
  | none => ItemDetail.success it.task_id
  | some e => ItemDetail.error it.task_id e

/-- The ascending `created_at` order used by `ORDER BY created_at ASC`. -/
def createdLE (a b : SyncItem) : Prop := a.created_at ≤ b.created_at

instance : DecidableRel createdLE := fun a b => Nat.decLe a.created_at b.created_at

instance : IsTotal SyncItem createdLE := ⟨fun a b => Nat.le_total a.created_at b.created_at⟩

instance : IsTrans SyncItem createdLE := ⟨fun _ _ _ h h' => Nat.le_trans h h'⟩

/-- The descending `created_at` order used by `ORDER BY created_at DESC`. -/
def createdGE (a b : SyncItem) : Prop := b.created_at ≤ a.created_at

instance : DecidableRel createdGE := fun a b => Nat.decLe b.created_at a.created_at

instance : IsTotal SyncItem createdGE := ⟨fun a b => Nat.le_total b.created_at a.created_at⟩

instance : IsTrans SyncItem createdGE := ⟨fun _ _ _ h h' => Nat.le_trans h' h⟩

/-- `SELECT * FROM sync_queue WHERE retry_count < maxRetries ORDER BY
created_at ASC`: the snapshot a pass operates over. -/
def listPending (queue : List SyncItem) : List SyncItem :=
  List.insertionSort createdLE (queue.filter (fun q => q.retry_count < maxRetries))

/-- `SyncService.sync` with the snapshot fetch made explicit: `Except.error`
is the outer catch (the fetch threw before any item was processed). -/
def syncRun (remote : Remote) (db : DB) (now : Nat)
    (fetched : Except String (List SyncItem)) : SyncResult × DB :=
  match fetched with
  | Except.error e =>
    ({ success := false
       synced_items := 0
       failed_items := 0
       details := Details.fatal e }, db)
  | Except.ok items =>
    if items.length = 0 then
      ({ success := true
         synced_items := 0
         failed_items := 0
         details := Details.noItems }, db)
    else
      let out := runItems remote now db items
      ({ success := out.failed == 0
         synced_items := out.synced
         failed_items := out.failed
         details := Details.perItem out.entries },
       out.db)

/-- `SyncService.sync` on an available store: fetch the pending snapshot and
run the pass. -/
def sync (remote : Remote) (db : DB) (now : Nat) : SyncResult × DB :=
  syncRun remote db now (Except.ok (listPending db.queue))

/-- The `WHERE` clause built by `SyncService.getSyncQueue`: a `failed` status
adds `error_message IS NOT NULL`, any other supplied status adds
`error_message IS NULL`, and no status adds nothing. -/
def statusFilter (status : Option String) (q : SyncItem) : Bool :=
  match status with
  | none => true
  | some s => if s = "failed" then q.error_message.isSome else q.error_message.isNone

/-- `SyncService.getSyncQueue`: filter by the status clause, `ORDER BY
created_at DESC`, then apply `OFFSET` and `LIMIT`. -/
def getSyncQueue (queue : List SyncItem) (limit offset : Nat)
    (status : Option String) : List SyncItem :=
  (((List.insertionSort createdGE (queue.filter (statusFilter status))).drop
      offset).take limit)

/-- The tally returned by the retry operations. -/
structure RetryResult where
  retried : Nat
  failed : Nat
deriving DecidableEq, Repr

/-- Whether a queue row is exhausted (`retry_count >= maxRetries`). -/
def exhausted (q : SyncItem) : Bool := maxRetries ≤ q.retry_count

/-- The reset applied by the retry operations: `retry_count = 0`,
`error_message = NULL`. -/
def resetItem (q : SyncItem) : SyncItem :=
  { q with retry_count := 0, error_message := none }

/-- `SyncService.retryAllFailed`: `UPDATE sync_queue SET retry_count = 0,
error_message = NULL WHERE retry_count >= maxRetries`; reports the number of
changed rows as `retried` and `failed = 0`. -/
def retryAllFailed (queue : List SyncItem) : List SyncItem × RetryResult :=
  ((queue.map fun q => if exhausted q then resetItem q else q),
   { retried := (queue.filter exhausted).length, failed := 0 })

/-- `SyncService.retryFailed`: same reset restricted to the supplied ids;
`retried` is the number of changed rows, `failed` is `ids.length` minus
that. -/
def retryFailed (queue : List SyncItem) (ids : List String) :
    List SyncItem × RetryResult :=
  if ids.length = 0 then (queue, { retried := 0, failed := 0 })
  else
    let hit : SyncItem → Bool := fun q => ids.contains q.id && exhausted q
    ((queue.map fun q => if hit q then resetItem q else q),
     { retried := (queue.filter hit).length
       failed := ids.length - (queue.filter hit).length })

/-- A subset-of-fields task object (the TypeScript task patch type restricted
to the fields the task routes accept); an absent field is `none`
(JS `undefined`). -/
structure TaskPatch where
  title : Option String := none
  description : Option String := none
  completed : Option Bool := none
deriving DecidableEq, Repr

/-- JS `o || d` on an optional string: an absent or empty (falsy) string
yields the default. -/
def jsOrStr (o : Option String) (d : String) : String :=
  match o with
  | some s => if s = "" then d else s
  | none => d

/-- JS `o || d` on an optional boolean: absent or `false` yields the
default. -/
def jsOrBool (o : Option Bool) (d : Bool) : Bool :=
  match o with
  | some b => if b then b else d
  | none => d

/-- `TaskService.getTask`: `SELECT * FROM tasks WHERE id = ? AND
is_deleted = 0`, first matching row. -/
def getTask (db : DB) (id : String) : Option Task :=
  (db.tasks.filter fun t => t.id == id && !t.is_deleted).head?

/-- `TaskService.createTask`: builds the task with JS `||` defaults, inserts
it, and enqueues one `create` intent carrying the task it just built. -/
def createTask (db : DB) (taskData : TaskPatch) (taskId syncId : String)
    (now : Nat) : Task × DB :=
  let task : Task :=
    { id := taskId
      title := jsOrStr taskData.title ""
      description := jsOrStr taskData.description ""
      completed := jsOrBool taskData.completed false
      created_at := now
      updated_at := now
      is_deleted := false
      sync_status := SyncStatus.pending
      server_id := none
      last_synced_at := none }
  let db1 : DB := { db with tasks := db.tasks ++ [task] }
  (task, addToSyncQueue db1 task.id "create" (Payload.ofTask task) syncId now)

/-- `TaskService.updateTask`: `undefined`-checked field merge, `UPDATE` of the
row, re-fetch of the updated task, then one `update` intent carrying the
re-fetched (post-mutation) task. -/
def updateTask (db : DB) (id : String) (updates : TaskPatch)
    (syncId : String) (now : Nat) : Option Task × DB :=
  match getTask db id with
  | none => (none, db)
  | some existingTask =>
    let db1 : DB := { db with tasks := db.tasks.map fun t =>
      if t.id = id then
        { t with
          title := updates.title.getD existingTask.title
          description := updates.description.getD existingTask.description
          completed := updates.completed.getD existingTask.completed
          updated_at := now
          sync_status := SyncStatus.pending }
      else t }
    match getTask db1 id with
    | some updatedTask =>
      (some updatedTask,
       addToSyncQueue db1 id "update" (Payload.ofTask updatedTask) syncId now)
    | none => (none, db1)

/-- `TaskService.deleteTask`: soft delete (`is_deleted = 1`), then one
`delete` intent carrying `existingTask` — the snapshot fetched before the
soft delete. -/
def deleteTask (db : DB) (id : String) (syncId : String) (now : Nat) :
    Bool × DB :=
  match getTask db id with
  | none => (false, db)
  | some existingTask =>
    let db1 : DB := { db with tasks := db.tasks.map fun t =>
      if t.id = id then
        { t with
          is_deleted := true
          updated_at := now
          sync_status := SyncStatus.pending }
      else t }
    (true, addToSyncQueue db1 id "delete" (Payload.ofTask existingTask) syncId now)

/-- The request body of `POST /api/tasks` (absent fields are `none`). -/
structure CreateBody where
  title : Option String := none
  description : Option String := none
  completed : Option Bool := none
deriving DecidableEq, Repr

/-- Outcome of a route handler: the produced value or a 400 rejection. -/
inductive RouteResult (α : Type)
  | ok (value : α)
  | badRequest (message : String)
deriving DecidableEq, Repr

/-- The `POST /` handler of `createTaskRouter`: rejects a falsy (absent or
empty) title with 400, otherwise normalizes the body with `||` defaults and
calls `createTask`. -/
def postTask (db : DB) (body : CreateBody) (taskId syncId : String)
    (now : Nat) : RouteResult (Task × DB) :=
  if body.title = none ∨ body.title = some "" then
    RouteResult.badRequest "Title is required"
  else
    RouteResult.ok (createTask db
      { title := body.title
        description := some (jsOrStr body.description "")
        completed := some (jsOrBool body.completed false) }
      taskId syncId now)

/-! ### Concrete fixtures used by witness and counterexample theorems -/

/-- A remote boundary that always succeeds. -/
def remoteOK : Remote := fun _ _ _ => Except.ok ()

/-- A remote boundary that always throws. -/
def remoteBad : Remote := fun _ _ _ => Except.error "API Error: boom"

/-- A basic stored task. -/
def tA : Task :=
  { id := "t1"
    title := "a"
    description := ""
    completed := false
    created_at := 0
    updated_at := 0
    is_deleted := false
    sync_status := SyncStatus.pending
    server_id := none
    last_synced_at := none }

/-- A pending intent that will succeed. -/
def wItemOK : SyncItem :=
  { id := "q1"
    task_id := "t1"
    operation := "update"
    data := Payload.ofTask tA
    created_at := 1
    retry_count := 0
    error_message := none }

/-- A pending intent on its last retry, forced to fail. -/
def wItemBad : SyncItem :=
  { id := "q2"
    task_id := "t1"
    operation := "fail"
    data := Payload.ofTask tA
    created_at := 2
    retry_count := 2
    error_message := some "old" }

/-- An exhausted intent, excluded from every pass. -/
def wItemOld : SyncItem :=
  { id := "q3"
    task_id := "t2"
    operation := "delete"
    data := Payload.malformed
    created_at := 0
    retry_count := 3
    error_message := some "x" }

/-- A store holding one task and a queue with a succeeding, a failing and an
exhausted intent. -/
def wdb : DB := { tasks := [tA], queue := [wItemBad, wItemOK, wItemOld] }

/-- An intent that has failed once (`retry_count = 1 < maxRetries`) but
carries an error message. -/
def c3item : SyncItem :=
  { id := "q9"
    task_id := "t9"
    operation := "update"
    data := Payload.malformed
    created_at := 1
    retry_count := 1
    error_message := some "x" }

/-- A store with one live task and an empty queue. -/
def c4db : DB := { tasks := [tA], queue := [] }

/-- A pending intent targeted by a selective retry. -/
def c5pending : SyncItem :=
  { id := "p1"
    task_id := "t1"
    operation := "update"
    data := Payload.ofTask tA
    created_at := 1
    retry_count := 1
    error_message := some "e1" }

/-- An exhausted intent targeted by a selective retry. -/
def c5failed : SyncItem :=
  { id := "f1"
    task_id := "t2"
    operation := "update"
    data := Payload.malformed
    created_at := 2
    retry_count := 3
    error_message := some "e2" }

/-- A queue holding one pending and one exhausted intent. -/
def c5queue : List SyncItem := [c5pending, c5failed]

/-- A store whose queue holds only an exhausted intent: the pending snapshot
is empty. -/
def c7db : DB := { tasks := [], queue := [wItemOld] }

/-- The task produced by the `POST /` fixture below. -/
def c9task : Task :=
  { id := "t9"
    title := "a"
    description := ""
    completed := false
    created_at := 5
    updated_at := 5
    is_deleted := false
    sync_status := SyncStatus.pending
    server_id := none
    last_synced_at := none }

/-- The store produced by the `POST /` fixture below. -/
def c9db : DB :=
  { tasks := [c9task]
    queue := [{ id := "s9"
                task_id := "t9"
                operation := "create"
                data := Payload.ofTask c9task
                created_at := 5
                retry_count := 0
                error_message := none }] }

/-! ### Shared lemmas -/

theorem listPending_eq_nil {queue : List SyncItem}
    (h : ∀ q ∈ queue, maxRetries ≤ q.retry_count) : listPending queue = [] := by
  unfold listPending
  have hf : queue.filter (fun q => q.retry_count < maxRetries) = [] :=
    List.filter_eq_nil_iff.mpr (fun a ha => by
      simpa using Nat.not_lt.mpr (h a ha))
  rw [hf]
  rfl

theorem handleSyncError_queue (db : DB) (item : SyncItem) (e : String) :
    (handleSyncError db item e).queue =
      db.queue.map (fun q =>
        if q.id = item.id then
          { q with retry_count := item.retry_count + 1, error_message := some e }
        else q) := by
  unfold handleSyncError
  by_cases hc : maxRetries ≤ item.retry_count + 1 <;> simp [hc]

theorem handleSyncError_tasks_exhausted (db : DB) (item : SyncItem)
    (e : String) (h : maxRetries ≤ item.retry_count + 1) :
    (handleSyncError db item e).tasks =
      db.tasks.map (fun t =>
        if t.id = item.task_id then { t with sync_status := SyncStatus.error }
        else t) := by
  unfold handleSyncError
  simp [h]

theorem addToSyncQueue_tasks (db : DB) (taskId operation : String)
    (data : Payload) (syncId : String) (now : Nat) :
    (addToSyncQueue db taskId operation data syncId now).tasks = db.tasks := rfl

theorem processSyncItem_snd (remote : Remote) (db : DB) (item : SyncItem)
    (now : Nat) :
    (processSyncItem remote db item now).2 =
      (match processOutcome remote item with
       | some e => Except.error e
       | none => Except.ok (applySuccess db item now)) := by
  unfold processSyncItem processOutcome
  by_cases hop : item.operation = "fail"
  · simp [hop]
  · simp only [hop, if_false]
    match item.data with
    | Payload.malformed => rfl
    | Payload.ofTask t =>
      by_cases htr : failTrigger item t
      · simp [htr]
      · simp only [htr, if_false, Bool.false_eq_true]
        cases hmk : makeApiCall remote item.operation t item.task_id with
        | mk c r => cases r <;> simp

theorem runItems_cons (remote : Remote) (now : Nat) (db : DB)
    (item : SyncItem) (rest : List SyncItem) :
    runItems remote now db (item :: rest) =
      (match processOutcome remote item with
       | none =>
         let out := runItems remote now (applySuccess db item now) rest
         { out with
           synced := out.synced + 1
           entries := (item.id, ItemDetail.success item.task_id) :: out.entries }
       | some e =>
         let out := runItems remote now (handleSyncError db item e) rest
         { out with
           failed := out.failed + 1
           entries := (item.id, ItemDetail.error item.task_id e) :: out.entries }) := by
  simp only [runItems]
  rw [processSyncItem_snd]
  cases processOutcome remote item <;> rfl

theorem runItems_entries (remote : Remote) (now : Nat) :
    ∀ (items : List SyncItem) (db : DB),
      (runItems remote now db items).entries =
        items.map (fun it => (it.id, detailOf remote it)) := by
  intro items
  induction items with
  | nil => intro db; rfl
  | cons item rest ih =>
    intro db
    rw [runItems_cons]
    cases h : processOutcome remote item <;> simp [detailOf, h, ih]

theorem runItems_counts (remote : Remote) (now : Nat) :
    ∀ (items : List SyncItem) (db : DB),
      (runItems remote now db items).synced =
        (items.filter (fun it => (processOutcome remote it).isNone)).length ∧
      (runItems remote now db items).failed =
        (items.filter (fun it => (processOutcome remote it).isSome)).length := by
  intro items
  induction items with
  | nil => intro db; exact ⟨rfl, rfl⟩
  | cons item rest ih =>
    intro db
    rw [runItems_cons]
    cases h : processOutcome remote item with
    | none => simpa [h] using ih (applySuccess db item now)
    | some e => simpa [h] using ih (handleSyncError db item e)

theorem filter_byId_map_pres (l : List SyncItem) (g : SyncItem → SyncItem)
    (i : String) (hid : ∀ q, (g q).id = q.id) :
    (l.map g).filter (byId i) = (l.filter (byId i)).map g := by
  induction l with
  | nil => rfl
  | cons a rest ih =>
    by_cases ha : byId i a
    · have : byId i (g a) = true := by
        unfold byId at ha ⊢
        rw [hid]
        exact ha
      simp [List.filter_cons, ha, this, ih]
    · have : byId i (g a) = false := by
        unfold byId at ha ⊢
        rw [hid]
        simpa using ha
      simp [List.filter_cons, ha, this, ih]

theorem filter_byId_filter_ne (l : List SyncItem) (i j : String)
    (hne : i ≠ j) :
    (l.filter (fun q => ¬ q.id = j)).filter (byId i) = l.filter (byId i) := by
  rw [List.filter_filter]
  apply List.filter_congr
  intro a _
  by_cases ha : a.id = i
  · simp [byId, ha, hne]
  · simp [byId, ha]

theorem applySuccess_frame (db : DB) (item : SyncItem) (now : Nat)
    (i : String) (hne : i ≠ item.id) :
    (applySuccess db item now).queue.filter (byId i) =
      db.queue.filter (byId i) := by
  unfold applySuccess
  exact filter_byId_filter_ne db.queue i item.id hne

theorem handleSyncError_frame (db : DB) (item : SyncItem) (e : String)
    (i : String) (hne : i ≠ item.id) :
    (handleSyncError db item e).queue.filter (byId i) =
      db.queue.filter (byId i) := by
  rw [handleSyncError_queue,
    filter_byId_map_pres _ _ i (fun q => by by_cases hq : q.id = item.id <;> simp [hq])]
  have hfix : ∀ q ∈ db.queue.filter (byId i),
      (fun q => if q.id = item.id then
        { q with retry_count := item.retry_count + 1, error_message := some e }
       else q) q = id q := by
    intro q hq
    have hqi : q.id = i := by simpa [byId] using (List.mem_filter.mp hq).2
    have hni : ¬ q.id = item.id := by rw [hqi]; exact hne
    simp [hni]
  rw [List.map_congr_left hfix, List.map_id]

theorem runItems_frame (remote : Remote) (now : Nat) :
    ∀ (items : List SyncItem) (db : DB) (i : String),
      i ∉ items.map (fun q => q.id) →
      ((runItems remote now db items).db).queue.filter (byId i) =
        db.queue.filter (byId i) := by
  intro items
  induction items with
  | nil => intro db i _; rfl
  | cons item rest ih =>
    intro db i hi
    have hne : i ≠ item.id := fun h => hi (by simp [h])
    have hrest : i ∉ rest.map (fun q => q.id) := fun h => hi (by simp [h])
    rw [runItems_cons]
    cases h : processOutcome remote item with
    | none =>
      show ((runItems remote now (applySuccess db item now) rest).db).queue.filter (byId i) = _
      rw [ih _ i hrest, applySuccess_frame db item now i hne]
    | some e =>
      show ((runItems remote now (handleSyncError db item e) rest).db).queue.filter (byId i) = _
      rw [ih _ i hrest, handleSyncError_frame db item e i hne]

theorem filter_byId_of_nodup :
    ∀ (l : List SyncItem), (l.map (fun q => q.id)).Nodup →
      ∀ item ∈ l, l.filter (byId item.id) = [item] := by
  intro l
  induction l with
  | nil => intro _ item h; exact absurd h (List.not_mem_nil item)
  | cons a rest ih =>
    intro hN item hmem
    rw [List.map_cons, List.nodup_cons] at hN
    obtain ⟨ha, hrest⟩ := hN
    rcases List.mem_cons.mp hmem with heq | hmem'
    · subst heq
      have hnil : rest.filter (byId item.id) = [] := by
        apply List.filter_eq_nil_iff.mpr
        intro q hq hbq
        exact ha (by
          have : q.id = item.id := by simpa [byId] using hbq
          rw [← this]
          exact List.mem_map_of_mem (fun q => q.id) hq)
      simp [List.filter_cons, byId, hnil]
    · have hne : ¬ byId item.id a := by
        simp only [byId, beq_iff_eq]
        intro hai
        exact ha (hai ▸ List.mem_map_of_mem (fun q => q.id) hmem')
      simp only [List.filter_cons, hne, if_false, Bool.false_eq_true]
      exact ih hrest item hmem'

theorem applySuccess_self (db : DB) (item : SyncItem) (now : Nat) :
    (applySuccess db item now).queue.filter (byId item.id) = [] := by
  unfold applySuccess
  apply List.filter_eq_nil_iff.mpr
  intro q hq hbq
  have h1 : ¬ q.id = item.id := by simpa using (List.mem_filter.mp hq).2
  exact h1 (by simpa [byId] using hbq)

theorem handleSyncError_self (db : DB) (item : SyncItem) (e : String)
    (hrow : db.queue.filter (byId item.id) = [item]) :
    (handleSyncError db item e).queue.filter (byId item.id) =
      [{ item with retry_count := item.retry_count + 1, error_message := some e }] := by
  rw [handleSyncError_queue,
    filter_byId_map_pres _ _ item.id
      (fun q => by by_cases hq : q.id = item.id <;> simp [hq]),
    hrow]
  simp

theorem runItems_fail_final (remote : Remote) (now : Nat) (e : String)
    (item : SyncItem) :
    ∀ (items : List SyncItem) (db : DB),
      (items.map (fun q => q.id)).Nodup → item ∈ items →
      db.queue.filter (byId item.id) = [item] →
      processOutcome remote item = some e →
      ((runItems remote now db items).db).queue.filter (byId item.id) =
        [{ item with retry_count := item.retry_count + 1, error_message := some e }] := by
  intro items
  induction items with
  | nil => intro db _ h; exact absurd h (List.not_mem_nil item)
  | cons a rest ih =>
    intro db hN hmem hrow hout
    rw [List.map_cons, List.nodup_cons] at hN
    obtain ⟨ha, hrest⟩ := hN
    rcases List.mem_cons.mp hmem with heq | hmem'
    · subst heq
      rw [runItems_cons, hout]
      show ((runItems remote now (handleSyncError db item e) rest).db).queue.filter
        (byId item.id) = _
      rw [runItems_frame remote now rest (handleSyncError db item e) item.id ha,
        handleSyncError_self db item e hrow]
    · have hane : item.id ≠ a.id := by
        intro hai
        exact ha (hai ▸ List.mem_map_of_mem (fun q => q.id) hmem')
      rw [runItems_cons]
      cases houta : processOutcome remote a with
      | none =>
        refine ih (applySuccess db a now) hrest hmem' ?_ hout
        rw [applySuccess_frame db a now item.id hane, hrow]
      | some ea =>
        refine ih (handleSyncError db a ea) hrest hmem' ?_ hout
        rw [handleSyncError_frame db a ea item.id hane, hrow]

theorem runItems_ok_final (remote : Remote) (now : Nat) (item : SyncItem) :
    ∀ (items : List SyncItem) (db : DB),
      (items.map (fun q => q.id)).Nodup → item ∈ items →
      processOutcome remote item = none →
      ((runItems remote now db items).db).queue.filter (byId item.id) = [] := by
  intro items
  induction items with
  | nil => intro db _ h; exact absurd h (List.not_mem_nil item)
  | cons a rest ih =>
    intro db hN hmem hout
    rw [List.map_cons, List.nodup_cons] at hN
    obtain ⟨ha, hrest⟩ := hN
    rcases List.mem_cons.mp hmem with heq | hmem'
    · subst heq
      rw [runItems_cons, hout]
      show ((runItems remote now (applySuccess db item now) rest).db).queue.filter
        (byId item.id) = _
      rw [runItems_frame remote now rest (applySuccess db item now) item.id ha,
        applySuccess_self db item now]
    · rw [runItems_cons]
      cases houta : processOutcome remote a with
      | none => exact ih (applySuccess db a now) hrest hmem' hout
      | some ea => exact ih (handleSyncError db a ea) hrest hmem' hout

theorem listPending_mem (queue : List SyncItem) (x : SyncItem) :
    x ∈ listPending queue ↔ x ∈ queue ∧ x.retry_count < maxRetries := by
  unfold listPending
  rw [List.mem_insertionSort]
  simp [List.mem_filter]

theorem listPending_sorted (queue : List SyncItem) :
    List.Sorted createdLE (listPending queue) :=
  List.sorted_insertionSort createdLE _

theorem listPending_sub (queue : List SyncItem) :
    ∀ x ∈ listPending queue, x ∈ queue :=
  fun x hx => ((listPending_mem queue x).mp hx).1

theorem listPending_ids_nodup (queue : List SyncItem)
    (hN : (queue.map (fun q => q.id)).Nodup) :
    ((listPending queue).map (fun q => q.id)).Nodup := by
  have hperm : List.Perm (listPending queue)
      (queue.filter (fun q => q.retry_count < maxRetries)) :=
    List.perm_insertionSort createdLE _
  have hsub : List.Sublist
      ((queue.filter (fun q => q.retry_count < maxRetries)).map (fun q => q.id))
      (queue.map (fun q => q.id)) :=
    (List.filter_sublist queue).map (fun q => q.id)
  exact ((hperm.map (fun q => q.id)).nodup_iff).mpr (hN.sublist hsub)

theorem sync_eq_of_ne_nil (remote : Remote) (db : DB) (now : Nat)
    (h : listPending db.queue ≠ []) :
    sync remote db now =
      ({ success := (runItems remote now db (listPending db.queue)).failed == 0
         synced_items := (runItems remote now db (listPending db.queue)).synced
         failed_items := (runItems remote now db (listPending db.queue)).failed
         details := Details.perItem (runItems remote now db (listPending db.queue)).entries },
       (runItems remote now db (listPending db.queue)).db) := by
  unfold sync syncRun
  have hlen : ¬ (listPending db.queue).length = 0 := by
    simpa [List.length_eq_zero] using h
  simp only [if_neg hlen]

/-! ### Claim theorems -/

/-- C1: a snapshot intent whose processing fails ends the pass with its queue
row still present, its retry count incremented by one and the error message
stored; the pass records an error detail for it while still visiting every
snapshot intent; and when the new retry count reaches `maxRetries` the
failure handler marks the owning task row `error`. -/
theorem C1_failure_handling (remote : Remote) (db : DB) (now : Nat)
    (item : SyncItem) (e : String)
    (hN : (db.queue.map (fun q => q.id)).Nodup)
    (hmem : item ∈ listPending db.queue)
    (hfail : processOutcome remote item = some e) :
    (sync remote db now).2.queue.filter (byId item.id) =
      [{ item with retry_count := item.retry_count + 1, error_message := some e }]
    ∧ (∃ ds, (sync remote db now).1.details = Details.perItem ds ∧
        (item.id, ItemDetail.error item.task_id e) ∈ ds ∧
        ds.map Prod.fst = (listPending db.queue).map (fun q => q.id))
    ∧ (∀ db2 : DB, maxRetries ≤ item.retry_count + 1 →
        ∀ t ∈ (handleSyncError db2 item e).tasks, t.id = item.task_id →
          t.sync_status = SyncStatus.error) := by
  have hne : listPending db.queue ≠ [] := List.ne_nil_of_mem hmem
  have hids := listPending_ids_nodup db.queue hN
  have hrow := filter_byId_of_nodup db.queue hN item (listPending_sub db.queue item hmem)
  rw [sync_eq_of_ne_nil remote db now hne]
  refine ⟨?_, ?_, ?_⟩
  · exact runItems_fail_final remote now e item (listPending db.queue) db hids hmem
      hrow hfail
  · refine ⟨(runItems remote now db (listPending db.queue)).entries, rfl, ?_, ?_⟩
    · have hd : detailOf remote item = ItemDetail.error item.task_id e := by
        simp [detailOf, hfail]
      rw [runItems_entries]
      exact hd ▸ List.mem_map_of_mem (fun it => (it.id, detailOf remote it)) hmem
    · rw [runItems_entries, List.map_map]
      rfl
  · intro db2 hex t ht htid
    rw [handleSyncError_tasks_exhausted db2 item e hex] at ht
    rcases List.mem_map.mp ht with ⟨t0, _, hEq⟩
    by_cases h0 : t0.id = item.task_id
    · rw [if_pos h0] at hEq
      rw [← hEq]
    · rw [if_neg h0] at hEq
      rw [← hEq] at htid
      exact absurd htid h0

/-- C1 witness: the forced-failure intent of the fixture store, on its third
failure. -/
theorem C1_witness :
    (sync remoteOK wdb 9).2.queue.filter (byId wItemBad.id) =
      [{ wItemBad with
         retry_count := wItemBad.retry_count + 1
         error_message := some "Forced failure for testing" }]
    ∧ (∃ ds, (sync remoteOK wdb 9).1.details = Details.perItem ds ∧
        (wItemBad.id, ItemDetail.error wItemBad.task_id "Forced failure for testing") ∈ ds ∧
        ds.map Prod.fst = (listPending wdb.queue).map (fun q => q.id))
    ∧ (∀ db2 : DB, maxRetries ≤ wItemBad.retry_count + 1 →
        ∀ t ∈ (handleSyncError db2 wItemBad "Forced failure for testing").tasks,
          t.id = wItemBad.task_id → t.sync_status = SyncStatus.error) :=
  C1_failure_handling remoteOK wdb 9 wItemBad "Forced failure for testing"
    (by decide) (by decide) (by decide)

/-- C2: a snapshot intent whose processing succeeds has the owning task row
set to `synced` with a non-null `last_synced_at`, ends the pass removed from
the queue, is recorded as a success detail and counted in `synced_items`,
and the pass success flag equals `failed_items == 0`. -/
theorem C2_success_handling (remote : Remote) (db : DB) (now : Nat)
    (item : SyncItem)
    (hN : (db.queue.map (fun q => q.id)).Nodup)
    (hmem : item ∈ listPending db.queue)
    (hok : processOutcome remote item = none) :
    (∀ (db2 : DB) (now2 : Nat), ∀ t ∈ (applySuccess db2 item now2).tasks,
        t.id = item.task_id →
          t.sync_status = SyncStatus.synced ∧ t.last_synced_at = some now2)
    ∧ (sync remote db now).2.queue.filter (byId item.id) = []
    ∧ (∃ ds, (sync remote db now).1.details = Details.perItem ds ∧
        (item.id, ItemDetail.success item.task_id) ∈ ds)
    ∧ (sync remote db now).1.synced_items =
        ((listPending db.queue).filter
          (fun it => (processOutcome remote it).isNone)).length
    ∧ (sync remote db now).1.success = ((sync remote db now).1.failed_items == 0) := by
  have hne : listPending db.queue ≠ [] := List.ne_nil_of_mem hmem
  have hids := listPending_ids_nodup db.queue hN
  rw [sync_eq_of_ne_nil remote db now hne]
  refine ⟨?_, ?_, ?_, ?_, rfl⟩
  · intro db2 now2 t ht htid
    unfold applySuccess at ht
    rcases List.mem_map.mp ht with ⟨t0, _, hEq⟩
    by_cases h0 : t0.id = item.task_id
    · rw [if_pos h0] at hEq
      rw [← hEq]
      exact ⟨rfl, rfl⟩
    · rw [if_neg h0] at hEq
      rw [← hEq] at htid
      exact absurd htid h0
  · exact runItems_ok_final remote now item (listPending db.queue) db hids hmem hok
  · refine ⟨(runItems remote now db (listPending db.queue)).entries, rfl, ?_⟩
    have hd : detailOf remote item = ItemDetail.success item.task_id := by
      simp [detailOf, hok]
    rw [runItems_entries]
    exact hd ▸ List.mem_map_of_mem (fun it => (it.id, detailOf remote it)) hmem
  · exact (runItems_counts remote now (listPending db.queue) db).1

/-- C2 witness: the succeeding intent of the fixture store under an
always-succeeding remote. -/
theorem C2_witness :
    (∀ (db2 : DB) (now2 : Nat), ∀ t ∈ (applySuccess db2 wItemOK now2).tasks,
        t.id = wItemOK.task_id →
          t.sync_status = SyncStatus.synced ∧ t.last_synced_at = some now2)
    ∧ (sync remoteOK wdb 9).2.queue.filter (byId wItemOK.id) = []
    ∧ (∃ ds, (sync remoteOK wdb 9).1.details = Details.perItem ds ∧
        (wItemOK.id, ItemDetail.success wItemOK.task_id) ∈ ds)
    ∧ (sync remoteOK wdb 9).1.synced_items =
        ((listPending wdb.queue).filter
          (fun it => (processOutcome remoteOK it).isNone)).length
    ∧ (sync remoteOK wdb 9).1.success = ((sync remoteOK wdb 9).1.failed_items == 0) :=
  C2_success_handling remoteOK wdb 9 wItemOK (by decide) (by decide) (by decide)

/-- C6: the pass snapshot holds exactly the intents with
`retry_count < maxRetries`, sorted ascending by `created_at`, and the pass
detail entries follow the snapshot order exactly. -/
theorem C6_snapshot_contents_and_order (queue : List SyncItem)
    (remote : Remote) (db : DB) (now : Nat) :
    (∀ x, x ∈ listPending queue ↔ x ∈ queue ∧ x.retry_count < maxRetries)
    ∧ List.Sorted createdLE (listPending queue)
    ∧ (∀ ds, (sync remote db now).1.details = Details.perItem ds →
        ds.map Prod.fst = (listPending db.queue).map (fun q => q.id)) := by
  refine ⟨fun x => listPending_mem queue x, listPending_sorted queue, ?_⟩
  intro ds hds
  by_cases hnil : listPending db.queue = []
  · have hno : (sync remote db now).1.details = Details.noItems := by
      unfold sync syncRun
      rw [hnil]
      rfl
    rw [hno] at hds
    exact absurd hds (by simp)
  · rw [sync_eq_of_ne_nil remote db now hnil] at hds
    simp only [Details.perItem.injEq] at hds
    rw [← hds, runItems_entries, List.map_map]
    rfl

/-- C6 witness: the fixture store's snapshot and pass order. -/
theorem C6_witness :
    (∀ x, x ∈ listPending wdb.queue ↔ x ∈ wdb.queue ∧ x.retry_count < maxRetries)
    ∧ List.Sorted createdLE (listPending wdb.queue)
    ∧ (∀ ds, (sync remoteOK wdb 9).1.details = Details.perItem ds →
        ds.map Prod.fst = (listPending wdb.queue).map (fun q => q.id)) :=
  C6_snapshot_contents_and_order wdb.queue remoteOK wdb 9

/-- C7: a reconciliation pass over an empty pending queue returns
`{success := true, synced_items := 0, failed_items := 0}` with the no-op
message, leaves the store unchanged, and a second invocation returns the
same result. -/
theorem C7_empty_pass_is_idempotent_noop (remote : Remote) (db : DB)
    (now now2 : Nat) (h : ∀ q ∈ db.queue, maxRetries ≤ q.retry_count) :
    sync remote db now =
      ({ success := true
         synced_items := 0
         failed_items := 0
         details := Details.noItems }, db)
    ∧ sync remote (sync remote db now).2 now2 =
      ({ success := true
         synced_items := 0
         failed_items := 0
         details := Details.noItems }, db) := by
  have hs : ∀ n : Nat, sync remote db n =
      ({ success := true
         synced_items := 0
         failed_items := 0
         details := Details.noItems }, db) := by
    intro n
    unfold sync syncRun
    rw [listPending_eq_nil h]
    rfl
  refine ⟨hs now, ?_⟩
  rw [hs now]
  exact hs now2

/-- C7 witness: the empty-pending-queue pass on a concrete store whose only
intent is exhausted. -/
theorem C7_witness :
    sync remoteOK c7db 4 =
      ({ success := true
         synced_items := 0
         failed_items := 0
         details := Details.noItems }, c7db)
    ∧ sync remoteOK (sync remoteOK c7db 4).2 5 =
      ({ success := true
         synced_items := 0
         failed_items := 0
         details := Details.noItems }, c7db) :=
  C7_empty_pass_is_idempotent_noop remoteOK c7db 4 5 (by decide)

/-- C8: a pass whose snapshot fetch throws is reported with
`success = false`, zero counts, and the raw error message in the details;
it is never reported as a success. -/
theorem C8_snapshot_fetch_failure_aborts (remote : Remote) (db : DB)
    (now : Nat) (e : String) :
    syncRun remote db now (Except.error e) =
      ({ success := false
         synced_items := 0
         failed_items := 0
         details := Details.fatal e }, db)
    ∧ (syncRun remote db now (Except.error e)).1.success = false :=
  ⟨rfl, rfl⟩

/-- C10: an intent whose operation is `fail`, whose task id contains `fail`,
or whose parsed payload has title or description `TEST_FAILURE`, always
fails without the remote being invoked, and such a failure consumes retry
budget through `handleSyncError` like any other. -/
theorem C10_injected_failures (remote : Remote) (db : DB) (item : SyncItem)
    (now : Nat)
    (h : item.operation = "fail" ∨ strIncludes item.task_id "fail" = true ∨
         (∃ t, item.data = Payload.ofTask t ∧
            (t.title = "TEST_FAILURE" ∨ t.description = "TEST_FAILURE"))) :
    ((processSyncItem remote db item now).1 = false ∧
      ∃ e, (processSyncItem remote db item now).2 = Except.error e)
    ∧ (∀ e q, q ∈ (handleSyncError db item e).queue → q.id = item.id →
        q.retry_count = item.retry_count + 1 ∧ q.error_message = some e) := by
  constructor
  · unfold processSyncItem
    by_cases hop : item.operation = "fail"
    · simp [hop]
    · simp only [hop, if_false]
      match hd : item.data with
      | Payload.malformed => exact ⟨rfl, _, rfl⟩
      | Payload.ofTask t =>
        have htrig : failTrigger item t = true := by
          rcases h with h | h | h
          · exact absurd h hop
          · simp [failTrigger, h]
          · rcases h with ⟨t', ht', hcase⟩
            rw [hd] at ht'
            cases ht'
            rcases hcase with hc | hc <;> simp [failTrigger, hc]
        simp [htrig]
  · intro e q hq hid
    rw [handleSyncError_queue] at hq
    rcases List.mem_map.mp hq with ⟨q0, _, hEq⟩
    by_cases h0 : q0.id = item.id
    · rw [if_pos h0] at hEq
      rw [← hEq]
      exact ⟨rfl, rfl⟩
    · rw [if_neg h0] at hEq
      rw [← hEq] at hid
      exact absurd hid h0

/-- C10 witness: the forced-failure intent of the fixture store. -/
theorem C10_witness :
    (((processSyncItem remoteOK wdb wItemBad 9).1 = false ∧
      ∃ e, (processSyncItem remoteOK wdb wItemBad 9).2 = Except.error e)
    ∧ (∀ e q, q ∈ (handleSyncError wdb wItemBad e).queue → q.id = wItemBad.id →
        q.retry_count = wItemBad.retry_count + 1 ∧ q.error_message = some e)) :=
  C10_injected_failures remoteOK wdb wItemBad 9 (Or.inl rfl)

/-- C3 counterexample: an intent with `retry_count = 1 < maxRetries` but a
non-null `error_message` is returned by the `failed` listing and omitted by
the `pending` listing, so the listings do not partition by
`retry_count >= maxRetries` as claimed. -/
theorem C3_counterexample :
    c3item ∈ getSyncQueue [c3item] 50 0 (some "failed")
    ∧ (c3item ∈ getSyncQueue [c3item] 50 0 (some "pending")) = False
    ∧ c3item.retry_count < maxRetries := by
  refine ⟨by decide, by simp [getSyncQueue, statusFilter, c3item], by decide⟩

/-- C3 (amended): the `failed` listing returns intents with a non-null
`error_message`, the `pending` listing those with a null one — exactly so
when the window covers the whole queue — the unfiltered listing returns all
intents within the window, and every listing is ordered newest-first by
`created_at`. -/
theorem C3_listing_by_error_message (queue : List SyncItem)
    (limit offset : Nat) :
    (∀ x ∈ getSyncQueue queue limit offset (some "failed"),
        x ∈ queue ∧ x.error_message.isSome)
    ∧ (∀ x ∈ getSyncQueue queue limit offset (some "pending"),
        x ∈ queue ∧ x.error_message.isNone)
    ∧ (queue.length ≤ limit →
        (∀ x, x ∈ getSyncQueue queue limit 0 (some "failed") ↔
            x ∈ queue ∧ x.error_message.isSome)
        ∧ (∀ x, x ∈ getSyncQueue queue limit 0 (some "pending") ↔
            x ∈ queue ∧ x.error_message.isNone)
        ∧ (∀ x, x ∈ getSyncQueue queue limit 0 none ↔ x ∈ queue))
    ∧ (∀ status, List.Sorted createdGE (getSyncQueue queue limit offset status)) := by
  have hsub : ∀ (status : Option String) (x : SyncItem),
      x ∈ getSyncQueue queue limit offset status →
        x ∈ queue ∧ statusFilter status x = true := by
    intro status x hx
    unfold getSyncQueue at hx
    have h1 : x ∈ List.insertionSort createdGE (queue.filter (statusFilter status)) :=
      List.mem_of_mem_drop (List.mem_of_mem_take hx)
    rw [List.mem_insertionSort] at h1
    exact List.mem_filter.mp h1
  have hfull : ∀ status : Option String, queue.length ≤ limit →
      ∀ x, x ∈ getSyncQueue queue limit 0 status ↔
        x ∈ queue ∧ statusFilter status x = true := by
    intro status hlim x
    unfold getSyncQueue
    rw [List.drop_zero, List.take_of_length_le
      (le_trans (by rw [List.length_insertionSort]; exact queue.length_filter_le _) hlim),
      List.mem_insertionSort]
    exact List.mem_filter
  refine ⟨?_, ?_, ?_, ?_⟩
  · intro x hx
    have h := hsub (some "failed") x hx
    exact ⟨h.1, by simpa [statusFilter] using h.2⟩
  · intro x hx
    have h := hsub (some "pending") x hx
    exact ⟨h.1, by simpa [statusFilter] using h.2⟩
  · intro hlim
    refine ⟨?_, ?_, ?_⟩
    · intro x
      rw [hfull (some "failed") hlim x]
      simp [statusFilter]
    · intro x
      rw [hfull (some "pending") hlim x]
      simp [statusFilter]
    · intro x
      rw [hfull none hlim x]
      simp [statusFilter]
  · intro status
    unfold getSyncQueue
    exact (List.sorted_insertionSort createdGE _).sublist
      (List.Sublist.trans (List.take_sublist _ _) (List.drop_sublist _ _))

/-- C3 witness: a two-intent queue where only the once-failed intent appears
in the `failed` listing. -/
theorem C3_witness :
    (∀ x ∈ getSyncQueue [c3item, wItemOK] 50 0 (some "failed"),
        x ∈ [c3item, wItemOK] ∧ x.error_message.isSome)
    ∧ (∀ x ∈ getSyncQueue [c3item, wItemOK] 50 0 (some "pending"),
        x ∈ [c3item, wItemOK] ∧ x.error_message.isNone)
    ∧ (([c3item, wItemOK] : List SyncItem).length ≤ 50 →
        (∀ x, x ∈ getSyncQueue [c3item, wItemOK] 50 0 (some "failed") ↔
            x ∈ [c3item, wItemOK] ∧ x.error_message.isSome)
        ∧ (∀ x, x ∈ getSyncQueue [c3item, wItemOK] 50 0 (some "pending") ↔
            x ∈ [c3item, wItemOK] ∧ x.error_message.isNone)
        ∧ (∀ x, x ∈ getSyncQueue [c3item, wItemOK] 50 0 none ↔
            x ∈ [c3item, wItemOK]))
    ∧ (∀ status, List.Sorted createdGE (getSyncQueue [c3item, wItemOK] 50 0 status)) :=
  C3_listing_by_error_message [c3item, wItemOK] 50 0

/-- C4 counterexample: deleting the fixture task enqueues exactly one
intent, but its payload is the pre-delete snapshot (`is_deleted = false`)
while every stored post-mutation record has `is_deleted = true`, so the
delete intent does not carry the post-mutation record state as claimed. -/
theorem C4_counterexample :
    (deleteTask c4db "t1" "s1" 5).1 = true
    ∧ (deleteTask c4db "t1" "s1" 5).2.queue.map (fun q => q.data) =
        [Payload.ofTask tA]
    ∧ tA.is_deleted = false
    ∧ (deleteTask c4db "t1" "s1" 5).2.tasks.all (fun t => t.is_deleted) = true := by
  decide

/-- C4 (amended): each mutation enqueues exactly one intent with
`retry_count = 0` and `error_message = null`; the create and update intents
carry the post-mutation record state, while the delete intent carries the
record state fetched before the soft delete. -/
theorem C4_mutations_enqueue_one_intent (db : DB) (td updates : TaskPatch)
    (id taskId syncId : String) (now : Nat) :
    ((createTask db td taskId syncId now).2.queue =
        db.queue ++
          [{ id := syncId
             task_id := (createTask db td taskId syncId now).1.id
             operation := "create"
             data := Payload.ofTask (createTask db td taskId syncId now).1
             created_at := now
             retry_count := 0
             error_message := none }]
      ∧ (createTask db td taskId syncId now).2.tasks =
          db.tasks ++ [(createTask db td taskId syncId now).1])
    ∧ (∀ t, (updateTask db id updates syncId now).1 = some t →
        (updateTask db id updates syncId now).2.queue =
          db.queue ++
            [{ id := syncId
               task_id := id
               operation := "update"
               data := Payload.ofTask t
               created_at := now
               retry_count := 0
               error_message := none }]
        ∧ getTask (updateTask db id updates syncId now).2 id = some t)
    ∧ (∀ ex, getTask db id = some ex →
        (deleteTask db id syncId now).2.queue =
          db.queue ++
            [{ id := syncId
               task_id := id
               operation := "delete"
               data := Payload.ofTask ex
               created_at := now
               retry_count := 0
               error_message := none }]) := by
  refine ⟨⟨rfl, rfl⟩, ?_, ?_⟩
  · intro t ht
    unfold updateTask at ht ⊢
    cases hg : getTask db id with
    | none =>
      rw [hg] at ht
      exact absurd ht (by simp)
    | some existingTask =>
      rw [hg] at ht
      dsimp only at ht ⊢
      split at ht
      next u hu =>
        have hut : u = t := by simpa using ht
        subst hut
        exact ⟨rfl, hu⟩
      next hu =>
        exact absurd ht (by simp)
  · intro ex hex
    unfold deleteTask
    rw [hex]
    rfl

/-- C4 witness: the amended enqueue contract applied to the fixture store
with a fresh title patch, a completion update, and the fixture's task id. -/
theorem C4_witness :
    ((createTask c4db { title := some "b" } "t2" "s2" 5).2.queue =
        c4db.queue ++
          [{ id := "s2"
             task_id := (createTask c4db { title := some "b" } "t2" "s2" 5).1.id
             operation := "create"
             data := Payload.ofTask (createTask c4db { title := some "b" } "t2" "s2" 5).1
             created_at := 5
             retry_count := 0
             error_message := none }]
      ∧ (createTask c4db { title := some "b" } "t2" "s2" 5).2.tasks =
          c4db.tasks ++ [(createTask c4db { title := some "b" } "t2" "s2" 5).1])
    ∧ (∀ t, (updateTask c4db "t1" { completed := some true } "s2" 5).1 = some t →
        (updateTask c4db "t1" { completed := some true } "s2" 5).2.queue =
          c4db.queue ++
            [{ id := "s2"
               task_id := "t1"
               operation := "update"
               data := Payload.ofTask t
               created_at := 5
               retry_count := 0
               error_message := none }]
        ∧ getTask (updateTask c4db "t1" { completed := some true } "s2" 5).2 "t1" =
            some t)
    ∧ (∀ ex, getTask c4db "t1" = some ex →
        (deleteTask c4db "t1" "s2" 5).2.queue =
          c4db.queue ++
            [{ id := "s2"
               task_id := "t1"
               operation := "delete"
               data := Payload.ofTask ex
               created_at := 5
               retry_count := 0
               error_message := none }]) :=
  C4_mutations_enqueue_one_intent c4db { title := some "b" }
    { completed := some true } "t1" "t2" "s2" 5

theorem length_filter_or_disjoint {α : Type} (p r : α → Bool) :
    ∀ l : List α, (∀ a ∈ l, ¬(p a = true ∧ r a = true)) →
      (l.filter fun a => p a || r a).length =
        (l.filter p).length + (l.filter r).length := by
  intro l
  induction l with
  | nil => intro _; rfl
  | cons a rest ih =>
    intro hdis
    have ihr := ih (fun x hx => hdis x (List.mem_cons_of_mem a hx))
    by_cases hp : p a = true
    · have hr : r a = false := by
        cases hrr : r a
        · rfl
        · exact absurd ⟨hp, hrr⟩ (hdis a (List.mem_cons_self a rest))
      simp only [List.filter_cons, hp, hr, Bool.true_or, if_true,
        Bool.false_eq_true, if_false, List.length_cons, ihr]
      omega
    · have hp' : p a = false := by simpa using hp
      cases hr : r a
      · simp [List.filter_cons, hp', hr, ihr]
      · simp only [List.filter_cons, hp', hr, Bool.or_true, if_true,
          Bool.false_eq_true, if_false, List.length_cons, ihr]
        omega

theorem length_filter_id_single (i : String) (P : SyncItem → Bool) :
    ∀ l : List SyncItem, (l.map (fun q => q.id)).Nodup →
      (l.filter (fun q => q.id == i && P q)).length =
        (if l.any (fun q => q.id == i && P q) then 1 else 0) := by
  intro l
  induction l with
  | nil => intro _; rfl
  | cons a rest ih =>
    intro hN
    rw [List.map_cons, List.nodup_cons] at hN
    obtain ⟨ha, hrest⟩ := hN
    by_cases hai : a.id = i
    · have hnone : ∀ q ∈ rest, ¬(q.id == i && P q) = true := by
        intro q hq hqq
        have : q.id = i := by
          have := (Bool.and_eq_true _ _).mp hqq
          simpa using this.1
        exact ha (by
          rw [hai, ← this]
          exact List.mem_map_of_mem (fun q => q.id) hq)
      have hfilter : rest.filter (fun q => q.id == i && P q) = [] :=
        List.filter_eq_nil_iff.mpr hnone
      have hany : rest.any (fun q => q.id == i && P q) = false := by
        cases h : rest.any (fun q => q.id == i && P q)
        · rfl
        · rcases List.any_eq_true.mp h with ⟨q, hq, hqq⟩
          exact absurd hqq (hnone q hq)
      by_cases hP : P a = true
      · simp [List.filter_cons, List.any_cons, hai, hP, hfilter, hany]
      · have hP' : P a = false := by simpa using hP
        simp [List.filter_cons, List.any_cons, hai, hP', hfilter, hany]
    · have hfa : (a.id == i && P a) = false := by
        simp [hai]
      simp only [List.filter_cons, hfa, Bool.false_eq_true, if_false,
        List.any_cons, Bool.false_or]
      exact ih hrest

theorem length_filter_contains (P : SyncItem → Bool) (queue : List SyncItem)
    (hq : (queue.map (fun q => q.id)).Nodup) :
    ∀ ids : List String, ids.Nodup →
      (queue.filter (fun q => ids.contains q.id && P q)).length =
        (ids.filter (fun i => queue.any (fun q => q.id == i && P q))).length := by
  intro ids
  induction ids with
  | nil =>
    intro _
    have hnil : queue.filter (fun q => ([] : List String).contains q.id && P q) = [] :=
      List.filter_eq_nil_iff.mpr (fun a _ => by simp)
    rw [hnil]
    rfl
  | cons i rest ih =>
    intro hNod
    rw [List.nodup_cons] at hNod
    obtain ⟨hi, hrest⟩ := hNod
    have hpoint : ∀ q ∈ queue,
        ((i :: rest).contains q.id && P q) =
          ((q.id == i && P q) || (rest.contains q.id && P q)) := by
      intro q _
      by_cases hqi : q.id = i
      · simp [List.contains_cons, hqi]
      · simp [List.contains_cons, hqi]
    have hdis : ∀ q ∈ queue,
        ¬((q.id == i && P q) = true ∧ (rest.contains q.id && P q) = true) := by
      intro q _ ⟨h1, h2⟩
      have hqi : q.id = i := by
        have := (Bool.and_eq_true _ _).mp h1
        simpa using this.1
      have hqm : q.id ∈ rest := by
        have := (Bool.and_eq_true _ _).mp h2
        exact List.elem_iff.mp this.1
      exact hi (hqi ▸ hqm)
    rw [List.filter_congr hpoint,
      length_filter_or_disjoint _ _ queue hdis,
      length_filter_id_single i P queue hq, ih hrest, List.filter_cons]
    by_cases hany : queue.any (fun q => q.id == i && P q) = true
    · simp only [hany, if_true, List.length_cons]
      omega
    · have hf : queue.any (fun q => q.id == i && P q) = false := by simpa using hany
      simp [hf]

/-- C5: both retry operations reset exactly the exhausted intents
(`retry_count >= maxRetries`) to `retry_count = 0`, `error_message = null`,
leaving still-pending intents unchanged; the selective retry reports
`retried` as the number of supplied ids owning an exhausted intent and
`failed` as the remaining supplied ids. -/
theorem C5_retry_resets_exhausted_only (queue : List SyncItem)
    (ids : List String)
    (hq : (queue.map (fun q => q.id)).Nodup) (hids : ids.Nodup) :
    ((∀ q ∈ queue, exhausted q = false → q ∈ (retryAllFailed queue).1)
      ∧ (∀ q ∈ queue, exhausted q = true → resetItem q ∈ (retryAllFailed queue).1)
      ∧ (retryAllFailed queue).2 =
          { retried := (queue.filter exhausted).length, failed := 0 })
    ∧ ((∀ q ∈ queue, exhausted q = false → q ∈ (retryFailed queue ids).1)
      ∧ (∀ q ∈ queue, ids.contains q.id = false → q ∈ (retryFailed queue ids).1)
      ∧ (∀ q ∈ queue, ids.contains q.id = true → exhausted q = true →
          resetItem q ∈ (retryFailed queue ids).1)
      ∧ (retryFailed queue ids).2.retried =
          (ids.filter (fun i => queue.any (fun q => q.id == i && exhausted q))).length
      ∧ (retryFailed queue ids).2.failed =
          ids.length - (retryFailed queue ids).2.retried) := by
  refine ⟨⟨?_, ?_, rfl⟩, ?_⟩
  · intro q hq0 hex
    have := List.mem_map_of_mem
      (fun q => if exhausted q then resetItem q else q) hq0
    simpa [retryAllFailed, hex] using this
  · intro q hq0 hex
    have := List.mem_map_of_mem
      (fun q => if exhausted q then resetItem q else q) hq0
    simpa [retryAllFailed, hex] using this
  · by_cases hlen : ids.length = 0
    · have hnil : ids = [] := List.length_eq_zero.mp hlen
      subst hnil
      refine ⟨fun q hq0 _ => by simpa [retryFailed] using hq0,
        fun q hq0 _ => by simpa [retryFailed] using hq0,
        fun q _ hc _ => by simp [List.contains] at hc, rfl, rfl⟩
    · refine ⟨?_, ?_, ?_, ?_, ?_⟩
      · intro q hq0 hex
        have hres : (fun q => if ids.contains q.id && exhausted q then resetItem q
            else q) q = q := by
          simp [hex]
        have hmap := List.mem_map_of_mem
          (fun q => if ids.contains q.id && exhausted q then resetItem q else q) hq0
        rw [hres] at hmap
        show q ∈ (retryFailed queue ids).1
        simp only [retryFailed, hlen, if_false]
        exact hmap
      · intro q hq0 hc
        have hnc : q.id ∉ ids := by simpa using hc
        have hres : (fun q => if ids.contains q.id && exhausted q then resetItem q
            else q) q = q := by
          simp [hnc]
        have hmap := List.mem_map_of_mem
          (fun q => if ids.contains q.id && exhausted q then resetItem q else q) hq0
        rw [hres] at hmap
        show q ∈ (retryFailed queue ids).1
        simp only [retryFailed, hlen, if_false]
        exact hmap
      · intro q hq0 hc hex
        have hmem : q.id ∈ ids := by simpa using hc
        have hres : (fun q => if ids.contains q.id && exhausted q then resetItem q
            else q) q = resetItem q := by
          simp [hmem, hex]
        have hmap := List.mem_map_of_mem
          (fun q => if ids.contains q.id && exhausted q then resetItem q else q) hq0
        rw [hres] at hmap
        show resetItem q ∈ (retryFailed queue ids).1
        simp only [retryFailed, hlen, if_false]
        exact hmap
      · show (retryFailed queue ids).2.retried = _
        simp only [retryFailed, hlen, if_false]
        exact length_filter_contains exhausted queue hq ids hids
      · simp only [retryFailed, hlen, if_false]

/-- C5 witness: a queue with a pending and an exhausted intent, selecting
both ids — only the exhausted one is reset and the tally is
`{retried := 1, failed := 1}`. -/
theorem C5_witness :
    ((∀ q ∈ c5queue, exhausted q = false → q ∈ (retryAllFailed c5queue).1)
      ∧ (∀ q ∈ c5queue, exhausted q = true → resetItem q ∈ (retryAllFailed c5queue).1)
      ∧ (retryAllFailed c5queue).2 =
          { retried := (c5queue.filter exhausted).length, failed := 0 })
    ∧ ((∀ q ∈ c5queue, exhausted q = false → q ∈ (retryFailed c5queue ["p1", "f1"]).1)
      ∧ (∀ q ∈ c5queue, (["p1", "f1"] : List String).contains q.id = false →
          q ∈ (retryFailed c5queue ["p1", "f1"]).1)
      ∧ (∀ q ∈ c5queue, (["p1", "f1"] : List String).contains q.id = true →
          exhausted q = true → resetItem q ∈ (retryFailed c5queue ["p1", "f1"]).1)
      ∧ (retryFailed c5queue ["p1", "f1"]).2.retried =
          ((["p1", "f1"] : List String).filter
            (fun i => c5queue.any (fun q => q.id == i && exhausted q))).length
      ∧ (retryFailed c5queue ["p1", "f1"]).2.failed =
          (["p1", "f1"] : List String).length -
            (retryFailed c5queue ["p1", "f1"]).2.retried) :=
  C5_retry_resets_exhausted_only c5queue ["p1", "f1"] (by decide) (by decide)

/-- C9: a task produced by the creation route has a non-empty title, and
every task row in the resulting store is either pre-existing or has a
non-empty title. -/
theorem C9_created_title_nonempty (db : DB) (body : CreateBody)
    (taskId syncId : String) (now : Nat) (task : Task) (db' : DB)
    (h : postTask db body taskId syncId now = RouteResult.ok (task, db')) :
    task.title ≠ "" ∧ ∀ t ∈ db'.tasks, t ∈ db.tasks ∨ t.title ≠ "" := by
  unfold postTask at h
  by_cases hc : body.title = none ∨ body.title = some ""
  · rw [if_pos hc] at h
    exact absurd h (by simp)
  · rw [if_neg hc] at h
    push_neg at hc
    obtain ⟨hn, he⟩ := hc
    match hb : body.title with
    | none => exact absurd hb hn
    | some s =>
      have hs : s ≠ "" := fun hss => he (by rw [hb, hss])
      rw [hb] at h
      simp only [RouteResult.ok.injEq] at h
      have htitle : task.title = s := by
        have := congrArg (fun p => p.1.title) h
        simpa [createTask, jsOrStr, hs] using this.symm
      have htasks : db'.tasks = db.tasks ++ [(createTask db
          { title := some s
            description := some (jsOrStr body.description "")
            completed := some (jsOrBool body.completed false) }
          taskId syncId now).1] := by
        have := congrArg (fun p => p.2.tasks) h
        simpa [createTask, addToSyncQueue] using this.symm
      refine ⟨by rw [htitle]; exact hs, ?_⟩
      intro t ht
      rw [htasks] at ht
      rcases List.mem_append.mp ht with hl | hr
      · exact Or.inl hl
      · right
        have : t = (createTask db
            { title := some s
              description := some (jsOrStr body.description "")
              completed := some (jsOrBool body.completed false) }
            taskId syncId now).1 := by simpa using hr
        rw [this]
        simp [createTask, jsOrStr, hs]

/-- C9 witness: creating a task with title `a` through the route. -/
theorem C9_witness :
    c9task.title ≠ "" ∧ ∀ t ∈ c9db.tasks, t ∈ (DB.mk [] []).tasks ∨ t.title ≠ "" :=
  C9_created_title_nonempty (DB.mk [] []) { title := some "a" } "t9" "s9" 5
    c9task c9db (by decide)

end OutboxSpec
